import Mathlib

/-!
Shallow embedding of `examples/vision-language-modeling/run_lora_vlm.py`:
the dataset-schema normalization (`normalize_split`), the subset selection
and distributed sharding performed in `main`, the `to_1d_ids` shape helper,
and the batch collation with assistant-only label masking built by
`make_collate_fn`.  Python strings are modelled as lists of characters,
PyTorch tensors as shape + flattened data, and the external
tokenizer/processor as abstract functions supplied as parameters.
-/

/-- Python strings, modelled as lists of characters. -/
abbrev Str := List Char

/-- Characters removed by Python `str.strip()` (ASCII whitespace). -/
def pyIsSpace (c : Char) : Bool :=
  c == ' ' || c == '\t' || c == '\n' || c == '\r' || c == '\x0b' || c == '\x0c'

/-- Python `s.strip()`: drop whitespace from both ends. -/
def pyStrip (s : Str) : Str :=
  ((s.dropWhile pyIsSpace).reverse.dropWhile pyIsSpace).reverse

/-- Python `s or ""` applied to an optional string (`None` becomes `""`). -/
def orEmptyStr : Option Str → Str
  | none => []
  | some s => s

/-- Value stored under the `label` column: either a Python list of strings,
or any non-list value (covers `None` and other types, for which
`isinstance(lab, list)` is false in `normalize_split`). -/
inductive LabelVal where
  | strList (l : List Str)
  | nonList
deriving DecidableEq

/-- A raw dataset record as seen by `normalize_split._map`.  Each field is
`none` when the column is absent; for text columns the inner `Option`
models a present key holding Python `None`.  The `image` field merges
"key absent" and "value `None`", exactly as `ex.get("image")` does. -/
structure RawExample (Image : Type) where
  image : Option Image
  query : Option (Option Str) := none
  label : Option LabelVal := none
  question : Option (Option Str) := none
  answer : Option (Option Str) := none
deriving DecidableEq

/-- A normalized record `{image, question, answer}` produced by
`normalize_split._map`. -/
structure NormalizedExample (Image : Type) where
  image : Image
  question : Str
  answer : Str
deriving DecidableEq

/-- Errors raised by `normalize_split._map` (`ValueError` in Python). -/
inductive DataError where
  | missingImage
  | unknownSchema
deriving DecidableEq

/-- The body of `normalize_split._map` (run_lora_vlm.py lines 235-250).
`convertRGB` stands for PIL `Image.convert("RGB")`, an external operation
passed as a parameter. -/
def normalizeMap {Image : Type} (convertRGB : Image → Image)
    (ex : RawExample Image) : Except DataError (NormalizedExample Image) :=
  match ex.image with
  | none => .error .missingImage
  | some img =>
    match ex.query, ex.label with
    | some qv, some lab =>
      let q := pyStrip (orEmptyStr qv)
      let a := match lab with
        | .strList (h :: _) => h
        | _ => []
      .ok { image := convertRGB img, question := q, answer := a }
    | _, _ =>
      match ex.question, ex.answer with
      | some qv, some av =>
        .ok { image := convertRGB img, question := pyStrip (orEmptyStr qv),
              answer := pyStrip (orEmptyStr av) }
      | _, _ => .error .unknownSchema

/-- The dataset-level `ds.map(_map, ...)` of `normalize_split`: records are
mapped in order and the first raised error aborts the whole mapping
(no record is skipped). -/
def normalizeSplit {Image : Type} (convertRGB : Image → Image) :
    List (RawExample Image) → Except DataError (List (NormalizedExample Image))
  | [] => .ok []
  | ex :: rest =>
    match normalizeMap convertRGB ex with
    | .error e => .error e
    | .ok n =>
      match normalizeSplit convertRGB rest with
      | .error e => .error e
      | .ok ns => .ok (n :: ns)

/-- The raw record a re-normalization pass would see for an
already-normalized example: exactly the keys `image`, `question`, `answer`
produced by `normalize_split._map`. -/
def toRawRecord {Image : Type} (n : NormalizedExample Image) : RawExample Image :=
  { image := some n.image, question := some (some n.question),
    answer := some (some n.answer) }

/-- A raw record in the `query`/`label` schema variant. -/
def queryRecord {Image : Type} (img : Image) (x x2 : Str) : RawExample Image :=
  { image := some img, query := some (some x), label := some (.strList [x2]) }

/-- A raw record in the `question`/`answer` schema variant. -/
def questionRecord {Image : Type} (img : Image) (x x2 : Str) : RawExample Image :=
  { image := some img, question := some (some x), answer := some (some x2) }

/-- Error raised by `datasets.Dataset.select` when an index is out of range. -/
inductive SelectError where
  | indexOutOfRange
deriving DecidableEq

/-- The `datasets.Dataset.select(indices)` operation: pick the rows at the
given indices, failing on any index past the end of the dataset. -/
def selectRows {α : Type} (l : List α) : List Nat → Except SelectError (List α)
  | [] => .ok []
  | i :: is =>
    if h : i < l.length then
      match selectRows l is with
      | .ok rest => .ok (l[i] :: rest)
      | .error e => .error e
    else .error .indexOutOfRange

/-- The two values of `--sample_strategy`. -/
inductive SampleStrategy where
  | first
  | random
deriving DecidableEq

/-- Subset selection in `main` (run_lora_vlm.py lines 430-435):
`m = min(len(ds), max_train_samples)`; strategy `random` shuffles first
(`shuffle` stands for the external seeded `Dataset.shuffle`), then both
strategies do `select(range(m))`. -/
def subsetSelect {α : Type} (shuffle : List α → List α) (strategy : SampleStrategy)
    (l : List α) (maxTrainSamples : Nat) : Except SelectError (List α) :=
  let m := min l.length maxTrainSamples
  match strategy with
  | .random => selectRows (shuffle l) (List.range m)
  | .first => selectRows l (List.range m)

/-- Start offset of shard `index` in `datasets.Dataset.shard(num_shards,
index)` (contiguous sharding: `div * index + min(index, mod)`). -/
def shardStart (n numShards index : Nat) : Nat :=
  n / numShards * index + min index (n % numShards)

/-- Length of shard `index` in contiguous sharding:
`div + (1 if index < mod else 0)`. -/
def shardLen (n numShards index : Nat) : Nat :=
  n / numShards + (if index < n % numShards then 1 else 0)

/-- The `train_dataset.shard(num_shards=world_size, index=rank)` call in
`main` (line 444), with the contiguous sharding of the external `datasets`
library: shard `index` is the rows from `shardStart` to
`shardStart + shardLen`. -/
def shardContiguous {α : Type} (l : List α) (numShards index : Nat) : List α :=
  (l.drop (shardStart l.length numShards index)).take
    (shardLen l.length numShards index)

/-- A PyTorch tensor of integer token ids: a shape together with the
flattened data. -/
structure PyTensor where
  shape : List Nat
  data : List Int
deriving DecidableEq

/-- Number of dimensions (`t.ndim`). -/
def PyTensor.ndim (t : PyTensor) : Nat := t.shape.length

/-- The `t.squeeze(0)` operation: removes dimension 0 only when its size
is 1, otherwise leaves the tensor unchanged. -/
def PyTensor.squeeze0 (t : PyTensor) : PyTensor :=
  match t.shape with
  | 1 :: rest => { shape := rest, data := t.data }
  | _ => t

/-- The `t.view(-1)` operation: flatten into one dimension. -/
def PyTensor.view1 (t : PyTensor) : PyTensor :=
  { shape := [t.data.length], data := t.data }

/-- A Python nested-list-of-ints value, as a cons structure: `int` is a
bare integer, `nil`/`cons` build lists.  A `cons` whose tail is an `int`
has no Python counterpart and is rejected by `asTensor`. -/
inductive NestedVal where
  | int (n : Int)
  | nil
  | cons (head : NestedVal) (tail : NestedVal)
deriving DecidableEq

/-- Shape inferred by `torch.as_tensor` for a nested list, or `none` when
the nesting is ragged (where PyTorch raises). -/
def NestedVal.shape? : NestedVal → Option (List Nat)
  | .int _ => some []
  | .nil => some [0]
  | .cons h t =>
    match h.shape?, t.shape? with
    | some s, some (n :: s2) =>
      if n = 0 ∨ s2 = s then some ((n + 1) :: s) else none
    | _, _ => none

/-- Flattened data of a nested list. -/
def NestedVal.flat : NestedVal → List Int
  | .int n => [n]
  | .nil => []
  | .cons h t => h.flat ++ t.flat

/-- The `torch.as_tensor` conversion of a nested list, failing on ragged
input. -/
def asTensor (v : NestedVal) : Option PyTensor :=
  v.shape?.map fun s => { shape := s, data := v.flat }

/-- The value found under `input_ids` (attribute of a `BatchEncoding`, or
dict entry): either already a tensor, or some other array-like value. -/
inductive IdsVal where
  | tensor (t : PyTensor)
  | raw (v : NestedVal)
deriving DecidableEq

/-- The possible shapes of the object passed to `to_1d_ids`:
an object with an `input_ids` attribute, a dict with an `input_ids` key,
a raw tensor, a plain string, or any other array-like value. -/
inductive TemplateOut where
  | encoding (ids : IdsVal)
  | dict (ids : IdsVal)
  | tensor (t : PyTensor)
  | str (s : Str)
  | other (v : NestedVal)
deriving DecidableEq

/-- The tensor arm of `to_1d_ids` (lines 217-221): squeeze a 2-D tensor at
dimension 0, flatten higher dimensions, leave the rest. -/
def tensorBranch (t : PyTensor) : PyTensor :=
  if t.ndim = 2 then t.squeeze0
  else if 2 < t.ndim then t.view1
  else t

/-- The non-tensor arm of `to_1d_ids` (lines 222-225): `torch.as_tensor`,
then squeeze only when 2-D. -/
def nonTensorBranch (v : NestedVal) : Option PyTensor :=
  (asTensor v).map fun t => if t.ndim = 2 then t.squeeze0 else t

/-- The `to_1d_ids` helper (lines 200-227).  `tokenize` stands for the
external `processor.tokenizer(s, return_tensors="pt")`, whose `input_ids`
is a `(1, T)` tensor.  `none` models a raised exception from
`torch.as_tensor` on ragged input; `.long()` is the identity here. -/
def to_1d_ids (tokenize : Str → List Int) : TemplateOut → Option PyTensor
  | .encoding (.tensor t) => some (tensorBranch t)
  | .dict (.tensor t) => some (tensorBranch t)
  | .encoding (.raw v) => nonTensorBranch v
  | .dict (.raw v) => nonTensorBranch v
  | .tensor t => some (tensorBranch t)
  | .str s => some (tensorBranch { shape := [1, (tokenize s).length], data := tokenize s })
  | .other v => (asTensor v).map tensorBranch

/-- The label-ignore sentinel (`IGNORE_INDEX = -100`). -/
def IGNORE_INDEX : Int := -100

/-- The fixed legacy image-placeholder token id masked by `collate_fn`. -/
def LEGACY_IMAGE_TOKEN_ID : Nat := 262144

/-- Abstraction of the processor/tokenizer captured by `make_collate_fn`.
`padId` is `tok.pad_token_id` after the eos fallback; `boiId`/`eoiId` are
`convert_tokens_to_ids` of the begin/end-of-image tokens (`none` when the
lookup does not yield an int); `unkId` is `tok.unk_token_id` (possibly
`None`).  `promptIds` is the composite of `apply_chat_template` on the
prompt-only messages with `to_1d_ids` (the 1-D prompt token sequence for a
given image and stripped question); `fullIds` is the tokenization by
`processor(...)` of the full-conversation rendering for a given image,
stripped question and stripped answer, before batch padding. -/
structure VLProcessor (Image : Type) where
  padId : Nat
  unkId : Option Nat
  boiId : Option Nat
  eoiId : Option Nat
  promptIds : Image → Str → List Nat
  fullIds : Image → Str → Str → List Nat

/-- Right-padding of one row to length `len` with the pad token, as done
by `processor(..., padding=True)` with `padding_side = "right"`. -/
def padTo (padId : Nat) (len : Nat) (row : List Nat) : List Nat :=
  row ++ List.replicate (len - row.length) padId

/-- Length of the longest row, the common padded width of the batch. -/
def maxRowLen (rows : List (List Nat)) : Nat :=
  rows.foldr (fun r acc => max r.length acc) 0

/-- The tensor assignment `labels[labels == v] = IGNORE_INDEX`. -/
def replaceTok (v : Int) (labels : List (List Int)) : List (List Int) :=
  labels.map (List.map fun x => if x = v then IGNORE_INDEX else x)

/-- The slice assignment `labels[i, :n] = IGNORE_INDEX` on one row
(clipped at the row length, as Python slicing is). -/
def maskPromptRow : Nat → List Int → List Int
  | 0, row => row
  | _ + 1, [] => []
  | n + 1, _ :: row => IGNORE_INDEX :: maskPromptRow n row

/-- The tensors of one collated batch that the masking logic touches. -/
structure Batch where
  input_ids : List (List Nat)
  labels : List (List Int)
deriving DecidableEq

/-- The `collate_fn` built by `make_collate_fn` (lines 286-346), for the
tensors `input_ids` and `labels`.  Per example it strips question and
answer (lines 290-291), measures the prompt with `promptIds`
(lines 312-328), tokenizes and right-pads the full conversations
(line 330), clones `input_ids` into `labels` and replaces pad, guarded
begin/end-of-image and legacy image tokens by the sentinel (lines
333-339), then masks each measured prompt span (lines 342-343). -/
def collateFn {Image : Type} (P : VLProcessor Image)
    (batch : List (NormalizedExample Image)) : Batch :=
  let prompt_ids_list := batch.map fun ex => P.promptIds ex.image (pyStrip ex.question)
  let full_ids_list := batch.map fun ex =>
    P.fullIds ex.image (pyStrip ex.question) (pyStrip ex.answer)
  let L := maxRowLen full_ids_list
  let input_ids := full_ids_list.map (padTo P.padId L)
  let labels0 : List (List Int) := input_ids.map (List.map (fun t : Nat => (t : Int)))
  let labels1 := replaceTok ((P.padId : Int)) labels0
  let labels2 :=
    match P.boiId with
    | some b => if some b ≠ P.unkId then replaceTok ((b : Int)) labels1 else labels1
    | none => labels1
  let labels3 :=
    match P.eoiId with
    | some e => if some e ≠ P.unkId then replaceTok ((e : Int)) labels2 else labels2
    | none => labels2
  let labels4 := replaceTok ((LEGACY_IMAGE_TOKEN_ID : Int)) labels3
  let labels := List.zipWith (fun p row => maskPromptRow p.length row)
    prompt_ids_list labels4
  { input_ids := input_ids, labels := labels }

/-- Per-token restatement of the special-token replacements of lines
333-339: the value a single `input_ids` token is mapped to before the
prompt-span masking.  The four replacements of `collateFn` act
independently on each position, so the whole `labels` tensor before
line 342 is the elementwise image of `input_ids` under this function. -/
def maskTokVal {Image : Type} (P : VLProcessor Image) (x : Int) : Int :=
  let x1 := if x = (P.padId : Int) then IGNORE_INDEX else x
  let x2 :=
    match P.boiId with
    | some b => if some b ≠ P.unkId then (if x1 = (b : Int) then IGNORE_INDEX else x1) else x1
    | none => x1
  let x3 :=
    match P.eoiId with
    | some e => if some e ≠ P.unkId then (if x2 = (e : Int) then IGNORE_INDEX else x2) else x2
    | none => x2
  if x3 = (LEGACY_IMAGE_TOKEN_ID : Int) then IGNORE_INDEX else x3

/-- The prompt token sequence measured for one example (lines 311-328). -/
def promptTokRow {Image : Type} (P : VLProcessor Image)
    (ex : NormalizedExample Image) : List Nat :=
  P.promptIds ex.image (pyStrip ex.question)

/-- The unpadded full-conversation token sequence of one example
(lines 293-309 composed with the tokenizer of line 330). -/
def fullTokRow {Image : Type} (P : VLProcessor Image)
    (ex : NormalizedExample Image) : List Nat :=
  P.fullIds ex.image (pyStrip ex.question) (pyStrip ex.answer)

/-- Shapes the full tensor arm of `to_1d_ids` reduces to one dimension:
already 1-D, 2-D with a leading batch dimension of size 1, or more than
2-D (flattened by `view(-1)`). -/
def tensorOkFull (t : PyTensor) : Bool :=
  t.ndim == 1 || (t.ndim == 2 && t.shape.headD 0 == 1) || decide (2 < t.ndim)

/-- Shapes the squeeze-only arm (non-tensor `input_ids` values) reduces
to one dimension: 1-D, or 2-D with leading size 1. -/
def tensorOkSqueeze (t : PyTensor) : Bool :=
  t.ndim == 1 || (t.ndim == 2 && t.shape.headD 0 == 1)

/-- Inputs on which `to_1d_ids` produces a 1-D sequence: the underlying
ids value must be rectangular and of a shape the relevant arm
normalizes. -/
def goodShape : TemplateOut → Bool
  | .encoding (.tensor t) => tensorOkFull t
  | .dict (.tensor t) => tensorOkFull t
  | .encoding (.raw v) =>
    match asTensor v with
    | some t => tensorOkSqueeze t
    | none => false
  | .dict (.raw v) =>
    match asTensor v with
    | some t => tensorOkSqueeze t
    | none => false
  | .tensor t => tensorOkFull t
  | .str _ => true
  | .other v =>
    match asTensor v with
    | some t => tensorOkFull t
    | none => false

/-- A small concrete processor used to instantiate the collation theorems:
pad id 0, no image-boundary tokens, a one-token prompt and a two-token
full conversation. -/
def sampleProcessor : VLProcessor Unit :=
  { padId := 0, unkId := none, boiId := none, eoiId := none,
    promptIds := fun _ _ => [1], fullIds := fun _ _ _ => [1, 2] }

/-- A one-example batch for instantiating the collation theorems. -/
def sampleBatch : List (NormalizedExample Unit) :=
  [{ image := (), question := ['q'], answer := ['a'] }]

/-- C4: re-normalizing an already-normalized `{image, question, answer}`
record — the image already RGB (so `convert("RGB")` leaves it unchanged)
and both text fields already stripped — returns the record unchanged. -/
theorem normalize_idempotent {Image : Type} (convertRGB : Image → Image)
    (n : NormalizedExample Image)
    (himg : convertRGB n.image = n.image)
    (hq : pyStrip n.question = n.question)
    (ha : pyStrip n.answer = n.answer) :
    normalizeMap convertRGB (toRawRecord n) = .ok n := by
  simp [normalizeMap, toRawRecord, orEmptyStr, hq, ha, himg]

/-- Witness for `normalize_idempotent` at a concrete normalized record. -/
theorem normalize_idempotent_witness :
    normalizeMap (fun u : Unit => u)
        (toRawRecord { image := (), question := ['q'], answer := ['a'] }) =
      .ok { image := (), question := ['q'], answer := ['a'] } :=
  normalize_idempotent (fun u : Unit => u)
    { image := (), question := ['q'], answer := ['a'] } rfl (by decide) (by decide)

/-- C5 counterexample: with answer text carrying leading whitespace, the
`query`/`label` variant keeps the raw first label while the
`question`/`answer` variant strips it, so the two normalized outputs
differ. -/
theorem schema_equiv_counterexample :
    normalizeMap (fun u : Unit => u) (queryRecord () ['h'] [' ', 'a']) ≠
      normalizeMap (fun u : Unit => u) (questionRecord () ['h'] [' ', 'a']) := by
  have h1 : normalizeMap (fun u : Unit => u) (queryRecord () ['h'] [' ', 'a']) =
      .ok { image := (), question := ['h'], answer := [' ', 'a'] } := by rfl
  have h2 : normalizeMap (fun u : Unit => u) (questionRecord () ['h'] [' ', 'a']) =
      .ok { image := (), question := ['h'], answer := ['a'] } := by rfl
  rw [h1, h2]
  intro h
  simp at h

/-- C5 (amended): when the shared answer text is already
whitespace-stripped, normalizing the `query`/`label=[x2]` record and the
`question`/`answer=x2` record produce identical outputs. -/
theorem schema_equiv_of_stripped {Image : Type} (convertRGB : Image → Image)
    (img : Image) (x x2 : Str) (h : pyStrip x2 = x2) :
    normalizeMap convertRGB (queryRecord img x x2) =
      normalizeMap convertRGB (questionRecord img x x2) := by
  simp [normalizeMap, queryRecord, questionRecord, orEmptyStr, h]

/-- Witness for `schema_equiv_of_stripped` at a concrete stripped answer. -/
theorem schema_equiv_of_stripped_witness :
    normalizeMap (fun u : Unit => u) (queryRecord () ['h'] ['a']) =
      normalizeMap (fun u : Unit => u) (questionRecord () ['h'] ['a']) :=
  schema_equiv_of_stripped (fun u : Unit => u) () ['h'] ['a'] (by decide)

/-- Helper: once one record in the list raises, the whole sequential
`ds.map` of `normalize_split` results in an error (nothing is skipped). -/
theorem normalizeSplit_error_of_mem {Image : Type} (convertRGB : Image → Image)
    (ex : RawExample Image) (e0 : DataError)
    (hex : normalizeMap convertRGB ex = .error e0)
    (pre post : List (RawExample Image)) :
    ∃ e, normalizeSplit convertRGB (pre ++ ex :: post) = .error e := by
  induction pre with
  | nil => exact ⟨e0, by simp [normalizeSplit, hex]⟩
  | cons a pre ih =>
    obtain ⟨e, he⟩ := ih
    cases ha : normalizeMap convertRGB a with
    | error e2 => exact ⟨e2, by simp [normalizeSplit, ha]⟩
    | ok n => exact ⟨e, by simp [normalizeSplit, ha, he]⟩

/-- C8: a record with a missing (or `None`) image raises the
missing-image data error, and a record matching neither the
`query`/`label` nor the `question`/`answer` schema raises the
unknown-schema data error; in both cases the error propagates through the
whole dataset mapping (fail-fast) instead of the record being skipped. -/
theorem normalize_fail_fast {Image : Type} (convertRGB : Image → Image)
    (ex : RawExample Image) :
    (ex.image = none →
      normalizeMap convertRGB ex = .error .missingImage ∧
      ∀ pre post, ∃ e, normalizeSplit convertRGB (pre ++ ex :: post) = .error e) ∧
    ((ex.query = none ∨ ex.label = none) → (ex.question = none ∨ ex.answer = none) →
      (∃ e, normalizeMap convertRGB ex = .error e) ∧
      (∀ img, ex.image = some img →
        normalizeMap convertRGB ex = .error .unknownSchema) ∧
      ∀ pre post, ∃ e, normalizeSplit convertRGB (pre ++ ex :: post) = .error e) := by
  constructor
  · intro himg
    have hmap : normalizeMap convertRGB ex = .error .missingImage := by
      simp [normalizeMap, himg]
    exact ⟨hmap, fun pre post => normalizeSplit_error_of_mem convertRGB ex _ hmap pre post⟩
  · intro hql hqa
    have hschema : ∀ img, ex.image = some img →
        normalizeMap convertRGB ex = .error .unknownSchema := by
      intro img himg
      obtain ⟨i, q, lab, qn, ans⟩ := ex
      simp only at hql hqa himg
      subst himg
      cases q <;> cases lab <;> cases qn <;> cases ans <;> simp_all [normalizeMap]
    have hmap : ∃ e, normalizeMap convertRGB ex = .error e := by
      cases hi : ex.image with
      | none => exact ⟨.missingImage, by simp [normalizeMap, hi]⟩
      | some img => exact ⟨.unknownSchema, hschema img hi⟩
    obtain ⟨e, he⟩ := hmap
    exact ⟨⟨e, he⟩, hschema,
      fun pre post => normalizeSplit_error_of_mem convertRGB ex e he pre post⟩

/-- Witness for `normalize_fail_fast`: a record with no image, and a
record with an image but neither known column set. -/
theorem normalize_fail_fast_witness :
    normalizeMap (fun u : Unit => u) { image := none } = .error .missingImage ∧
    normalizeMap (fun u : Unit => u) ({ image := some () } : RawExample Unit) =
      .error .unknownSchema :=
  ⟨((normalize_fail_fast (fun u : Unit => u) { image := none }).1 rfl).1,
   ((normalize_fail_fast (fun u : Unit => u) { image := some () }).2
      (Or.inl rfl) (Or.inl rfl)).2.1 () rfl⟩

/-- C10: normalization never raises on degenerate text fields — a `None`
query or question becomes the empty question, an empty or non-list label
becomes the empty answer, and any record with an image and a recognized
column set normalizes successfully. -/
theorem normalize_degenerate_text {Image : Type} (convertRGB : Image → Image) :
    (∀ (img : Image) (lab : LabelVal), ∃ a,
      normalizeMap convertRGB { image := some img, query := some none, label := some lab } =
        .ok { image := convertRGB img, question := [], answer := a }) ∧
    (∀ (img : Image) (av : Option Str),
      normalizeMap convertRGB
          { image := some img, question := some none, answer := some av } =
        .ok { image := convertRGB img, question := [],
              answer := pyStrip (orEmptyStr av) }) ∧
    (∀ (img : Image) (qv : Option Str),
      normalizeMap convertRGB
          { image := some img, query := some qv, label := some (.strList []) } =
        .ok { image := convertRGB img, question := pyStrip (orEmptyStr qv),
              answer := [] }) ∧
    (∀ (img : Image) (qv : Option Str),
      normalizeMap convertRGB
          { image := some img, query := some qv, label := some .nonList } =
        .ok { image := convertRGB img, question := pyStrip (orEmptyStr qv),
              answer := [] }) ∧
    (∀ (ex : RawExample Image) (img : Image), ex.image = some img →
      ((ex.query ≠ none ∧ ex.label ≠ none) ∨ (ex.question ≠ none ∧ ex.answer ≠ none)) →
      ∃ n, normalizeMap convertRGB ex = .ok n) := by
  refine ⟨?_, ?_, ?_, ?_, ?_⟩
  · intro img lab
    cases lab with
    | strList l =>
      cases l with
      | nil => exact ⟨[], rfl⟩
      | cons h t => exact ⟨h, rfl⟩
    | nonList => exact ⟨[], rfl⟩
  · intro img av; rfl
  · intro img qv; rfl
  · intro img qv; rfl
  · intro ex img himg hpres
    obtain ⟨i, q, lab, qn, ans⟩ := ex
    simp only at himg hpres
    subst himg
    rcases hpres with ⟨hq, hlab⟩ | ⟨hqn, hans⟩ <;>
      cases q <;> cases lab <;> cases qn <;> cases ans <;>
        first
          | exact ⟨_, rfl⟩
          | simp_all [normalizeMap]

/-- Witness for `normalize_degenerate_text` at concrete degenerate
records. -/
theorem normalize_degenerate_text_witness :
    (∃ a, normalizeMap (fun u : Unit => u)
        { image := some (), query := some none, label := some .nonList } =
      .ok { image := (), question := [], answer := a }) ∧
    normalizeMap (fun u : Unit => u)
        { image := some (), question := some none, answer := some none } =
      .ok { image := (), question := [], answer := [] } ∧
    ∃ n, normalizeMap (fun u : Unit => u)
        { image := some (), query := some none, label := some (.strList []) } = .ok n :=
  ⟨(normalize_degenerate_text (fun u : Unit => u)).1 () .nonList,
   (normalize_degenerate_text (fun u : Unit => u)).2.1 () none,
   (normalize_degenerate_text (fun u : Unit => u)).2.2.2.2
     { image := some (), query := some none, label := some (.strList []) } () rfl
     (Or.inl ⟨by simp, by simp⟩)⟩

/-- Helper: selecting a contiguous in-bounds index range returns the
corresponding slice. -/
theorem selectRows_range_drop {α : Type} (l : List α) :
    ∀ (n s : Nat), s + n ≤ l.length →
      selectRows l (List.range' s n) = .ok ((l.drop s).take n) := by
  intro n
  induction n with
  | zero => intro s h; simp [selectRows, List.range']
  | succ n ih =>
    intro s h
    have hs : s < l.length := by omega
    have hrec := ih (s + 1) (by omega)
    rw [List.range'_succ]
    simp only [selectRows, hs, dif_pos, hrec]
    rw [List.drop_eq_getElem_cons hs, List.take_succ_cons]

/-- Helper: selecting `range m` with `m` within bounds returns the first
`m` rows. -/
theorem selectRows_range {α : Type} (l : List α) (m : Nat) (h : m ≤ l.length) :
    selectRows l (List.range m) = .ok (l.take m) := by
  rw [List.range_eq_range']
  simpa using selectRows_range_drop l m 0 (by omega)

/-- Helper: full behaviour of the subset-selection step, for both
strategies: it succeeds, returns exactly `min L N` rows, returns (a
permutation of) the whole dataset when `N ≥ L`, and only ever uses
in-bounds indices. -/
theorem subsetSelect_spec {α : Type} (shuffle : List α → List α)
    (hshuf : ∀ xs, (shuffle xs).Perm xs) (strategy : SampleStrategy)
    (l : List α) (N : Nat) :
    ∃ sel, subsetSelect shuffle strategy l N = .ok sel ∧
      sel.length = min l.length N ∧
      (l.length ≤ N → sel.Perm l) ∧
      ∀ i ∈ List.range (min l.length N), i < l.length := by
  cases strategy with
  | first =>
    refine ⟨l.take (min l.length N), ?_, ?_, ?_, ?_⟩
    · simp only [subsetSelect]
      exact selectRows_range l _ (by omega)
    · rw [List.length_take]; omega
    · intro h
      have hm : min l.length N = l.length := by omega
      rw [hm, List.take_length]
    · intro i hi; rw [List.mem_range] at hi; omega
  | random =>
    have hlen := (hshuf l).length_eq
    refine ⟨(shuffle l).take (min l.length N), ?_, ?_, ?_, ?_⟩
    · simp only [subsetSelect]
      exact selectRows_range (shuffle l) _ (by omega)
    · rw [List.length_take]; omega
    · intro h
      have hm : min l.length N = l.length := by omega
      rw [hm, ← hlen, List.take_length]
      exact hshuf l
    · intro i hi; rw [List.mem_range] at hi; omega

/-- C9: subset selection takes exactly `min(L, N)` examples, selects the
whole dataset (up to the shuffle permutation) when `N` exceeds the
dataset length, and never uses an out-of-bounds index. -/
theorem subset_selection_takes_min {α : Type} (shuffle : List α → List α)
    (hshuf : ∀ xs, (shuffle xs).Perm xs) (strategy : SampleStrategy)
    (l : List α) (N : Nat) :
    ∃ sel, subsetSelect shuffle strategy l N = .ok sel ∧
      sel.length = min l.length N ∧
      (l.length ≤ N → sel.Perm l) ∧
      ∀ i ∈ List.range (min l.length N), i < l.length :=
  subsetSelect_spec shuffle hshuf strategy l N

/-- Witness for `subset_selection_takes_min`: a 3-row dataset with
`max_train_samples = 5` selects all 3 rows without error. -/
theorem subset_selection_takes_min_witness :
    ∃ sel, subsetSelect (α := Nat) id .first [7, 8, 9] 5 = .ok sel ∧
      sel.length = min 3 5 ∧
      (3 ≤ 5 → sel.Perm [7, 8, 9]) ∧
      ∀ i ∈ List.range (min 3 5), i < 3 :=
  subset_selection_takes_min id (fun xs => List.Perm.refl xs) .first [7, 8, 9] 5

/-- Helper: concatenating slices cut at the values of a monotone offset
function reconstructs a prefix of the list. -/
theorem flatten_slices {α : Type} (l : List α) (f : Nat → Nat) (h0 : f 0 = 0)
    (hmono : ∀ i, f i ≤ f (i + 1)) (W : Nat) :
    ((List.range W).map fun i => (l.drop (f i)).take (f (i + 1) - f i)).flatten
      = l.take (f W) := by
  induction W with
  | zero => simp [h0]
  | succ W ih =>
    rw [List.range_succ, List.map_append, List.flatten_append, ih]
    simp only [List.map_cons, List.map_nil, List.flatten_cons, List.flatten_nil,
      List.append_nil]
    rw [← List.take_add]
    congr 1
    have := hmono W
    omega

/-- Helper: shard 0 starts at offset 0. -/
theorem shardStart_zero (n W : Nat) : shardStart n W 0 = 0 := by
  simp [shardStart]

/-- Helper: consecutive shard offsets differ by the shard length. -/
theorem shardStart_succ_sub (n W i : Nat) :
    shardStart n W (i + 1) - shardStart n W i = shardLen n W i := by
  simp only [shardStart, shardLen, Nat.mul_succ]
  generalize n % W = m
  generalize n / W * i = a
  generalize n / W = d
  by_cases h : i < m
  · rw [if_pos h]; omega
  · rw [if_neg h]; omega

/-- Helper: shard offsets are monotone. -/
theorem shardStart_mono (n W i : Nat) : shardStart n W i ≤ shardStart n W (i + 1) := by
  simp only [shardStart, Nat.mul_succ]
  generalize n % W = m
  generalize n / W * i = a
  generalize n / W = d
  omega

/-- Helper: the offset past the last shard is the whole length. -/
theorem shardStart_top (n W : Nat) (hW : 1 ≤ W) : shardStart n W W = n := by
  have hmod : n % W < W := Nat.mod_lt n (by omega)
  have hdm := Nat.div_add_mod n W
  simp only [shardStart]
  have hmin : min W (n % W) = n % W := by omega
  rw [hmin, Nat.mul_comm]
  exact hdm

/-- Helper: a shard is the slice between consecutive offsets. -/
theorem shardContiguous_eq_slice {α : Type} (l : List α) (W i : Nat) :
    shardContiguous l W i =
      (l.drop (shardStart l.length W i)).take
        (shardStart l.length W (i + 1) - shardStart l.length W i) := by
  rw [shardContiguous, shardStart_succ_sub]

/-- Helper: the `W` contiguous shards of a list concatenate back, in rank
order, to exactly the list, and on a duplicate-free list distinct shards
are pairwise disjoint. -/
theorem shards_partition {α : Type} (sel : List α) (W : Nat) (hW : 1 ≤ W) :
    ((List.range W).map (shardContiguous sel W)).flatten = sel ∧
    (sel.Nodup → ∀ i j, i < W → j < W → i ≠ j →
      ∀ x, x ∈ shardContiguous sel W i → x ∉ shardContiguous sel W j) := by
  have hmap : (List.range W).map (shardContiguous sel W) =
      (List.range W).map fun i =>
        (sel.drop (shardStart sel.length W i)).take
          (shardStart sel.length W (i + 1) - shardStart sel.length W i) :=
    List.map_congr_left fun i _ => shardContiguous_eq_slice sel W i
  have h1 : ((List.range W).map (shardContiguous sel W)).flatten = sel := by
    rw [hmap, flatten_slices sel _ (shardStart_zero _ _) (shardStart_mono _ _) W,
      shardStart_top _ _ hW, List.take_length]
  refine ⟨h1, ?_⟩
  intro hnd i j hi hj hij x hxi hxj
  have hjoin : ((List.range W).map (shardContiguous sel W)).flatten.Nodup := by
    rw [h1]; exact hnd
  have hpw := (List.nodup_flatten.mp hjoin).2
  rw [List.pairwise_map] at hpw
  have hsym : Symmetric fun a b : Nat =>
      List.Disjoint (shardContiguous sel W a) (shardContiguous sel W b) :=
    fun a b h y hy hy2 => h hy2 hy
  exact List.Pairwise.forall hsym hpw (List.mem_range.mpr hi)
    (List.mem_range.mpr hj) hij hxi hxj

/-- C6: the global subset followed by contiguous sharding into `W ≥ 1`
shards is a partition — the shards concatenate in rank order back to the
selected subset (so nothing is duplicated or lost) and, for a
duplicate-free subset, distinct ranks receive disjoint rows; in the
concrete scenario (100 examples, `max_train_samples = 10`, strategy
`first`, `world_size = 2`) the subset is the first 10 examples and ranks
0 and 1 receive 5 examples each, disjoint and covering all 10. -/
theorem subset_shard_partition {α : Type} (shuffle : List α → List α)
    (hshuf : ∀ xs, (shuffle xs).Perm xs) (strategy : SampleStrategy)
    (l : List α) (N W : Nat) (hW : 1 ≤ W) :
    (∃ sel, subsetSelect shuffle strategy l N = .ok sel ∧
      ((List.range W).map (shardContiguous sel W)).flatten = sel ∧
      (sel.Nodup → ∀ i j, i < W → j < W → i ≠ j →
        ∀ x, x ∈ shardContiguous sel W i → x ∉ shardContiguous sel W j)) ∧
    subsetSelect (α := Nat) id .first (List.range 100) 10 = .ok (List.range 10) ∧
    shardContiguous (List.range 10) 2 0 = [0, 1, 2, 3, 4] ∧
    shardContiguous (List.range 10) 2 1 = [5, 6, 7, 8, 9] := by
  refine ⟨?_, ?_, rfl, rfl⟩
  · obtain ⟨sel, hsel, _⟩ := subsetSelect_spec shuffle hshuf strategy l N
    exact ⟨sel, hsel, (shards_partition sel W hW).1, (shards_partition sel W hW).2⟩
  · rfl

/-- Witness for `subset_shard_partition` at the concrete scenario of the
specification. -/
theorem subset_shard_partition_witness :
    (∃ sel, subsetSelect (α := Nat) id .first (List.range 100) 10 = .ok sel ∧
      ((List.range 2).map (shardContiguous sel 2)).flatten = sel ∧
      (sel.Nodup → ∀ i j, i < 2 → j < 2 → i ≠ j →
        ∀ x, x ∈ shardContiguous sel 2 i → x ∉ shardContiguous sel 2 j)) ∧
    subsetSelect (α := Nat) id .first (List.range 100) 10 = .ok (List.range 10) ∧
    shardContiguous (List.range 10) 2 0 = [0, 1, 2, 3, 4] ∧
    shardContiguous (List.range 10) 2 1 = [5, 6, 7, 8, 9] :=
  subset_shard_partition id (fun xs => List.Perm.refl xs) .first
    (List.range 100) 10 2 (by omega)

/-- Helper: the full tensor arm yields a 1-D tensor on the shapes of
`tensorOkFull`. -/
theorem tensorBranch_ndim_one :
    ∀ t : PyTensor, tensorOkFull t = true → (tensorBranch t).ndim = 1 := by
  intro t h
  obtain ⟨shape, data⟩ := t
  match shape with
  | [] => simp [tensorOkFull, PyTensor.ndim] at h
  | [a] => simp [tensorBranch, PyTensor.ndim]
  | [a, b] =>
    simp [tensorOkFull, PyTensor.ndim] at h
    subst h
    simp [tensorBranch, PyTensor.ndim, PyTensor.squeeze0]
  | a :: b :: c :: rest =>
    simp [tensorBranch, PyTensor.ndim, PyTensor.view1]

/-- Helper: the squeeze-only arm yields a 1-D tensor on the shapes of
`tensorOkSqueeze`. -/
theorem squeeze_arm_ndim_one :
    ∀ t : PyTensor, tensorOkSqueeze t = true →
      (if t.ndim = 2 then t.squeeze0 else t).ndim = 1 := by
  intro t h
  obtain ⟨shape, data⟩ := t
  match shape with
  | [] => simp [tensorOkSqueeze, PyTensor.ndim] at h
  | [a] => simp [PyTensor.ndim]
  | [a, b] =>
    simp [tensorOkSqueeze, PyTensor.ndim] at h
    subst h
    simp [PyTensor.ndim, PyTensor.squeeze0]
  | a :: b :: c :: rest =>
    simp [tensorOkSqueeze, PyTensor.ndim] at h

/-- C7 (amended): for every templating return value whose underlying
token-id payload is rectangular and of a shape the helper's arms
normalize — a raw tensor that is 1-D, `(1, T)`, or higher than 2-D; an
encoding or dict whose `input_ids` is such a tensor, or a non-tensor
value converting to a 1-D or `(1, T)` array; a nested list converting to
a tensor of one of the raw-tensor shapes; or any plain string — the
helper returns a 1-D token-id sequence.  (2-D payloads with a leading
dimension other than 1, 0-D scalars, and deeper-than-2-D non-tensor
`input_ids` values are returned unflattened, see the counterexample.) -/
theorem to_1d_ids_returns_one_dim (tokenize : Str → List Int) (obj : TemplateOut)
    (h : goodShape obj = true) :
    ∃ t, to_1d_ids tokenize obj = some t ∧ t.ndim = 1 := by
  cases obj with
  | encoding ids =>
    cases ids with
    | tensor t => exact ⟨tensorBranch t, rfl, tensorBranch_ndim_one t h⟩
    | raw v =>
      simp only [goodShape] at h
      cases hv : asTensor v with
      | none => rw [hv] at h; simp at h
      | some t =>
        rw [hv] at h
        refine ⟨if t.ndim = 2 then t.squeeze0 else t, ?_, squeeze_arm_ndim_one t h⟩
        simp [to_1d_ids, nonTensorBranch, hv]
  | dict ids =>
    cases ids with
    | tensor t => exact ⟨tensorBranch t, rfl, tensorBranch_ndim_one t h⟩
    | raw v =>
      simp only [goodShape] at h
      cases hv : asTensor v with
      | none => rw [hv] at h; simp at h
      | some t =>
        rw [hv] at h
        refine ⟨if t.ndim = 2 then t.squeeze0 else t, ?_, squeeze_arm_ndim_one t h⟩
        simp [to_1d_ids, nonTensorBranch, hv]
  | tensor t => exact ⟨tensorBranch t, rfl, tensorBranch_ndim_one t h⟩
  | str s =>
    refine ⟨{ shape := [(tokenize s).length], data := tokenize s }, ?_, rfl⟩
    simp [to_1d_ids, tensorBranch, PyTensor.ndim, PyTensor.squeeze0]
  | other v =>
    simp only [goodShape] at h
    cases hv : asTensor v with
    | none => rw [hv] at h; simp at h
    | some t =>
      rw [hv] at h
      refine ⟨tensorBranch t, ?_, tensorBranch_ndim_one t h⟩
      simp [to_1d_ids, hv]

/-- C7 counterexample: a raw 2-D tensor with first dimension 2 (so not a
single-element batch) is returned by the helper with both dimensions
intact — the result is not a 1-D sequence, refuting the claim for
tensors of arbitrary dimensionality. -/
theorem to_1d_ids_counterexample :
    to_1d_ids (fun _ => []) (.tensor { shape := [2, 2], data := [0, 1, 2, 3] }) =
      some { shape := [2, 2], data := [0, 1, 2, 3] } ∧
    ({ shape := [2, 2], data := [0, 1, 2, 3] } : PyTensor).ndim ≠ 1 :=
  ⟨rfl, by decide⟩

/-- Witness for `to_1d_ids_returns_one_dim` at a concrete `(1, 3)`
tensor. -/
theorem to_1d_ids_returns_one_dim_witness :
    ∃ t, to_1d_ids (fun _ => [])
        (.tensor { shape := [1, 3], data := [5, 6, 7] }) = some t ∧ t.ndim = 1 :=
  to_1d_ids_returns_one_dim (fun _ => [])
    (.tensor { shape := [1, 3], data := [5, 6, 7] }) (by decide)

/-- Helper: `maskPromptRow` preserves the row length. -/
theorem maskPromptRow_length : ∀ (n : Nat) (row : List Int),
    (maskPromptRow n row).length = row.length := by
  intro n
  induction n with
  | zero => intro row; rfl
  | succ n ih =>
    intro row
    cases row with
    | nil => rfl
    | cons x row => simp [maskPromptRow, ih]

/-- Helper: inside the masked span, `maskPromptRow` yields the sentinel. -/
theorem maskPromptRow_getD_lt : ∀ (n : Nat) (row : List Int) (j : Nat),
    j < n → j < row.length → (maskPromptRow n row).getD j 0 = IGNORE_INDEX := by
  intro n
  induction n with
  | zero => intro row j hj _; omega
  | succ n ih =>
    intro row j hj hrow
    cases row with
    | nil => simp at hrow
    | cons x row =>
      cases j with
      | zero => rfl
      | succ j =>
        have : (maskPromptRow (n + 1) (x :: row)).getD (j + 1) 0 =
            (maskPromptRow n row).getD j 0 := rfl
        rw [this]
        exact ih row j (by omega) (by simpa using hrow)

/-- Helper: outside the masked span, `maskPromptRow` keeps the value. -/
theorem maskPromptRow_getD_ge : ∀ (n : Nat) (row : List Int) (j : Nat),
    n ≤ j → (maskPromptRow n row).getD j 0 = row.getD j 0 := by
  intro n
  induction n with
  | zero => intro row j _; rfl
  | succ n ih =>
    intro row j hj
    cases row with
    | nil => rfl
    | cons x row =>
      cases j with
      | zero => omega
      | succ j =>
        have h1 : (maskPromptRow (n + 1) (x :: row)).getD (j + 1) 0 =
            (maskPromptRow n row).getD j 0 := rfl
        have h2 : (x :: row).getD (j + 1) 0 = row.getD j 0 := rfl
        rw [h1, h2]
        exact ih row j (by omega)

/-- Helper: `input_ids` of the collated batch is, row by row, the padded
full-conversation tokenization of each example. -/
theorem collateFn_input_ids_eq {Image : Type} (P : VLProcessor Image)
    (batch : List (NormalizedExample Image)) :
    (collateFn P batch).input_ids = batch.map fun ex =>
      padTo P.padId (maxRowLen (batch.map (fullTokRow P))) (fullTokRow P ex) := by
  simp only [collateFn, fullTokRow, List.map_map]
  rfl

/-- Helper: `labels` of the collated batch is, row by row, the padded
full-conversation tokenization with every token passed through the
special-token masking and the measured prompt span overwritten by the
sentinel. -/
theorem collateFn_labels_eq {Image : Type} (P : VLProcessor Image)
    (batch : List (NormalizedExample Image)) :
    (collateFn P batch).labels = batch.map fun ex =>
      maskPromptRow (promptTokRow P ex).length
        ((padTo P.padId (maxRowLen (batch.map (fullTokRow P))) (fullTokRow P ex)).map
          fun t : Nat => maskTokVal P (t : Int)) := by
  rcases hb : P.boiId with _ | b <;> rcases he : P.eoiId with _ | e
  · simp only [collateFn, replaceTok, maskTokVal, promptTokRow, fullTokRow, hb, he,
      Function.comp, List.map_map, List.zipWith_map, List.zipWith_same]
    rfl
  · by_cases hce : some e ≠ P.unkId <;>
      simp only [collateFn, replaceTok, maskTokVal, promptTokRow, fullTokRow, hb, he,
        hce, if_true, if_false, ne_eq, not_true_eq_false, not_false_eq_true,
        ite_true, ite_false, Function.comp, List.map_map, List.zipWith_map, List.zipWith_same] <;>
      rfl
  · by_cases hcb : some b ≠ P.unkId <;>
      simp only [collateFn, replaceTok, maskTokVal, promptTokRow, fullTokRow, hb, he,
        hcb, if_true, if_false, ne_eq, not_true_eq_false, not_false_eq_true,
        ite_true, ite_false, Function.comp, List.map_map, List.zipWith_map, List.zipWith_same] <;>
      rfl
  · by_cases hcb : some b ≠ P.unkId <;> by_cases hce : some e ≠ P.unkId <;>
      simp only [collateFn, replaceTok, maskTokVal, promptTokRow, fullTokRow, hb, he,
        hcb, hce, if_true, if_false, ne_eq, not_true_eq_false, not_false_eq_true,
        ite_true, ite_false, Function.comp, List.map_map, List.zipWith_map, List.zipWith_same] <;>
      rfl

/-- Helper: a pad token is mapped to the sentinel by the special-token
masking (and the sentinel survives the later replacements). -/
theorem maskTokVal_pad {Image : Type} (P : VLProcessor Image) :
    maskTokVal P (P.padId : Int) = IGNORE_INDEX := by
  rcases hb : P.boiId with _ | b <;> rcases he : P.eoiId with _ | e <;>
    simp [maskTokVal, hb, he]

/-- Helper: a token distinct from the pad token, any guarded image
boundary token and the legacy image token passes through the
special-token masking unchanged. -/
theorem maskTokVal_keep {Image : Type} (P : VLProcessor Image) (t : Nat)
    (hpad : t ≠ P.padId)
    (hboi : ∀ b, P.boiId = some b → some b ≠ P.unkId → t ≠ b)
    (heoi : ∀ e, P.eoiId = some e → some e ≠ P.unkId → t ≠ e)
    (hleg : t ≠ LEGACY_IMAGE_TOKEN_ID) :
    maskTokVal P (t : Int) = (t : Int) := by
  have h1 : ¬((t : Int) = (P.padId : Int)) := by exact_mod_cast hpad
  have h4 : ¬((t : Int) = (LEGACY_IMAGE_TOKEN_ID : Int)) := by exact_mod_cast hleg
  rcases hbo : P.boiId with _ | b <;> rcases heo : P.eoiId with _ | e
  · simp [maskTokVal, hbo, heo, h1, h4]
  · by_cases hce : some e ≠ P.unkId
    · have h3 : ¬((t : Int) = (e : Int)) := by exact_mod_cast heoi e heo hce
      simp [maskTokVal, hbo, heo, hce, h1, h3, h4]
    · simp [maskTokVal, hbo, heo, hce, h1, h4]
  · by_cases hcb : some b ≠ P.unkId
    · have h2 : ¬((t : Int) = (b : Int)) := by exact_mod_cast hboi b hbo hcb
      simp [maskTokVal, hbo, heo, hcb, h1, h2, h4]
    · simp [maskTokVal, hbo, heo, hcb, h1, h4]
  · by_cases hcb : some b ≠ P.unkId <;> by_cases hce : some e ≠ P.unkId
    · have h2 : ¬((t : Int) = (b : Int)) := by exact_mod_cast hboi b hbo hcb
      have h3 : ¬((t : Int) = (e : Int)) := by exact_mod_cast heoi e heo hce
      simp [maskTokVal, hbo, heo, hcb, hce, h1, h2, h3, h4]
    · have h2 : ¬((t : Int) = (b : Int)) := by exact_mod_cast hboi b hbo hcb
      simp [maskTokVal, hbo, heo, hcb, hce, h1, h2, h4]
    · have h3 : ¬((t : Int) = (e : Int)) := by exact_mod_cast heoi e heo hce
      simp [maskTokVal, hbo, heo, hcb, hce, h1, h3, h4]
    · simp [maskTokVal, hbo, heo, hcb, hce, h1, h4]

/-- Helper: row `i` of the collated `labels`, when example `i` exists. -/
theorem collate_labels_row {Image : Type} (P : VLProcessor Image)
    (batch : List (NormalizedExample Image)) (i : Nat) (ex : NormalizedExample Image)
    (hex : batch[i]? = some ex) :
    (collateFn P batch).labels.getD i [] =
      maskPromptRow (promptTokRow P ex).length
        ((padTo P.padId (maxRowLen (batch.map (fullTokRow P))) (fullTokRow P ex)).map
          fun t : Nat => maskTokVal P (t : Int)) := by
  rw [collateFn_labels_eq, List.getD_eq_getElem?_getD, List.getElem?_map, hex]
  rfl

/-- Helper: row `i` of the collated `input_ids`, when example `i`
exists. -/
theorem collate_input_row {Image : Type} (P : VLProcessor Image)
    (batch : List (NormalizedExample Image)) (i : Nat) (ex : NormalizedExample Image)
    (hex : batch[i]? = some ex) :
    (collateFn P batch).input_ids.getD i [] =
      padTo P.padId (maxRowLen (batch.map (fullTokRow P))) (fullTokRow P ex) := by
  rw [collateFn_input_ids_eq, List.getD_eq_getElem?_getD, List.getElem?_map, hex]
  rfl

/-- C1: for every batch and every example `i` in it, the first
`prompt_length_i` positions of row `i` of the produced `labels` (where
`prompt_length_i` is the length of the 1-D token sequence measured from
the prompt-only rendering) all hold the ignore sentinel `-100`. -/
theorem collate_prompt_span_ignored {Image : Type} (P : VLProcessor Image)
    (batch : List (NormalizedExample Image)) (i j : Nat)
    (ex : NormalizedExample Image) (hex : batch[i]? = some ex)
    (hj : j < (promptTokRow P ex).length)
    (hrow : j < ((collateFn P batch).labels.getD i []).length) :
    ((collateFn P batch).labels.getD i []).getD j 0 = IGNORE_INDEX := by
  rw [collate_labels_row P batch i ex hex] at hrow ⊢
  refine maskPromptRow_getD_lt _ _ _ hj ?_
  rw [maskPromptRow_length] at hrow
  exact hrow

/-- Witness for `collate_prompt_span_ignored` on the concrete sample
batch. -/
theorem collate_prompt_span_ignored_witness :
    ((collateFn sampleProcessor sampleBatch).labels.getD 0 []).getD 0 0 =
      IGNORE_INDEX :=
  collate_prompt_span_ignored sampleProcessor sampleBatch 0 0
    { image := (), question := ['q'], answer := ['a'] } rfl (by decide) (by decide)

/-- C3: the produced `labels` tensor has exactly the shape of `input_ids`
(same number of rows, same length row by row), and every in-bounds
position whose `input_ids` entry is the pad-token id holds the ignore
sentinel `-100` — never the literal pad-token id. -/
theorem collate_pad_masked_and_shape {Image : Type} (P : VLProcessor Image)
    (batch : List (NormalizedExample Image)) :
    (collateFn P batch).labels.length = (collateFn P batch).input_ids.length ∧
    (∀ i, ((collateFn P batch).labels.getD i []).length =
      ((collateFn P batch).input_ids.getD i []).length) ∧
    ∀ i j, j < ((collateFn P batch).input_ids.getD i []).length →
      ((collateFn P batch).input_ids.getD i []).getD j 0 = P.padId →
      ((collateFn P batch).labels.getD i []).getD j 0 = IGNORE_INDEX ∧
      ((collateFn P batch).labels.getD i []).getD j 0 ≠ (P.padId : Int) := by
  refine ⟨?_, ?_, ?_⟩
  · rw [collateFn_labels_eq, collateFn_input_ids_eq, List.length_map, List.length_map]
  · intro i
    rw [collateFn_labels_eq, collateFn_input_ids_eq, List.getD_eq_getElem?_getD,
      List.getD_eq_getElem?_getD, List.getElem?_map, List.getElem?_map]
    cases hbi : batch[i]? with
    | none => rfl
    | some ex => simp [maskPromptRow_length]
  · intro i j hjlen hpad
    have hi : i < batch.length := by
      by_contra hge
      rw [collateFn_input_ids_eq, List.getD_eq_getElem?_getD, List.getElem?_map,
        List.getElem?_eq_none (by omega)] at hjlen
      simp at hjlen
    have hex : batch[i]? = some batch[i] := List.getElem?_eq_getElem hi
    rw [collate_input_row P batch i batch[i] hex] at hjlen hpad
    rw [collate_labels_row P batch i batch[i] hex]
    have hign_ne : IGNORE_INDEX ≠ (P.padId : Int) := by
      simp only [IGNORE_INDEX]; omega
    by_cases hj : j < (promptTokRow P batch[i]).length
    · have hmask := maskPromptRow_getD_lt (promptTokRow P batch[i]).length
        ((padTo P.padId (maxRowLen (batch.map (fullTokRow P)))
          (fullTokRow P batch[i])).map fun t : Nat => maskTokVal P (t : Int)) j hj
        (by rw [List.length_map]; exact hjlen)
      rw [hmask]
      exact ⟨rfl, hign_ne⟩
    · rw [maskPromptRow_getD_ge _ _ _ (by omega)]
      have hrj : (padTo P.padId (maxRowLen (batch.map (fullTokRow P)))
          (fullTokRow P batch[i]))[j]? =
          some ((padTo P.padId (maxRowLen (batch.map (fullTokRow P)))
            (fullTokRow P batch[i])).getD j 0) := by
        rw [List.getD_eq_getElem?_getD, List.getElem?_eq_getElem hjlen]
        rfl
      rw [List.getD_eq_getElem?_getD, List.getElem?_map, hrj, hpad]
      refine ⟨?_, ?_⟩
      · show maskTokVal P (P.padId : Int) = IGNORE_INDEX
        exact maskTokVal_pad P
      · show maskTokVal P (P.padId : Int) ≠ (P.padId : Int)
        rw [maskTokVal_pad]
        exact hign_ne

/-- Witness for `collate_pad_masked_and_shape` on the concrete sample
batch. -/
theorem collate_pad_masked_and_shape_witness :
    (collateFn sampleProcessor sampleBatch).labels.length =
      (collateFn sampleProcessor sampleBatch).input_ids.length ∧
    ((collateFn sampleProcessor sampleBatch).labels.getD 0 []).length =
      ((collateFn sampleProcessor sampleBatch).input_ids.getD 0 []).length :=
  ⟨(collate_pad_masked_and_shape sampleProcessor sampleBatch).1,
   (collate_pad_masked_and_shape sampleProcessor sampleBatch).2.1 0⟩

/-- C2: for an example whose answer is non-empty, if the full-conversation
tokenization extends the measured prompt tokenization by a non-empty
answer span containing at least one token that is not the pad token, not
a guarded image-boundary token and not the legacy image token, then the
produced `labels` row keeps at least one non-ignore entry. -/
theorem collate_answer_not_fully_masked {Image : Type} (P : VLProcessor Image)
    (batch : List (NormalizedExample Image)) (i : Nat)
    (ex : NormalizedExample Image) (hex : batch[i]? = some ex)
    (hans : ex.answer ≠ [])
    (tail : List Nat) (hsplit : fullTokRow P ex = promptTokRow P ex ++ tail)
    (t : Nat) (ht : t ∈ tail)
    (hpad : t ≠ P.padId)
    (hboi : ∀ b, P.boiId = some b → some b ≠ P.unkId → t ≠ b)
    (heoi : ∀ e, P.eoiId = some e → some e ≠ P.unkId → t ≠ e)
    (hleg : t ≠ LEGACY_IMAGE_TOKEN_ID) :
    ∃ j, j < ((collateFn P batch).labels.getD i []).length ∧
      ((collateFn P batch).labels.getD i []).getD j 0 ≠ IGNORE_INDEX := by
  rw [collate_labels_row P batch i ex hex]
  obtain ⟨k, hk, hkt⟩ := List.getElem_of_mem ht
  have hfl : (fullTokRow P ex).length = (promptTokRow P ex).length + tail.length := by
    rw [hsplit, List.length_append]
  have hjfull : (promptTokRow P ex).length + k < (fullTokRow P ex).length := by omega
  have hjrow : (promptTokRow P ex).length + k <
      (padTo P.padId (maxRowLen (batch.map (fullTokRow P))) (fullTokRow P ex)).length := by
    simp only [padTo, List.length_append, List.length_replicate]
    omega
  refine ⟨(promptTokRow P ex).length + k, ?_, ?_⟩
  · rw [maskPromptRow_length, List.length_map]
    exact hjrow
  · rw [maskPromptRow_getD_ge _ _ _ (by omega)]
    have hv1 : (padTo P.padId (maxRowLen (batch.map (fullTokRow P)))
        (fullTokRow P ex))[(promptTokRow P ex).length + k]? =
        (fullTokRow P ex)[(promptTokRow P ex).length + k]? := by
      simp only [padTo]
      exact List.getElem?_append_left hjfull
    have hv2 : (fullTokRow P ex)[(promptTokRow P ex).length + k]? = some t := by
      rw [hsplit, List.getElem?_append_right (by omega)]
      have hdiff : (promptTokRow P ex).length + k - (promptTokRow P ex).length = k := by
        omega
      rw [hdiff, List.getElem?_eq_getElem hk, hkt]
    rw [List.getD_eq_getElem?_getD, List.getElem?_map, hv1, hv2]
    show maskTokVal P (t : Int) ≠ IGNORE_INDEX
    rw [maskTokVal_keep P t hpad hboi heoi hleg]
    simp only [IGNORE_INDEX]
    omega

/-- Witness for `collate_answer_not_fully_masked` on the concrete sample
batch: the answer token 2 survives masking. -/
theorem collate_answer_not_fully_masked_witness :
    ∃ j, j < ((collateFn sampleProcessor sampleBatch).labels.getD 0 []).length ∧
      ((collateFn sampleProcessor sampleBatch).labels.getD 0 []).getD j 0 ≠
        IGNORE_INDEX :=
  collate_answer_not_fully_masked sampleProcessor sampleBatch 0
    { image := (), question := ['q'], answer := ['a'] } rfl (by decide)
    [2] (by decide) 2 (by decide) (by decide)
    (fun b hb => by simp [sampleProcessor] at hb)
    (fun e he => by simp [sampleProcessor] at he)
    (by decide)
